import Mathlib

/-!
# Verification of light-ss connection-processing core

A shallow embedding, in Lean 4, of the parts of the `light-ss` Go
repository that the specification's claims are about:

* cipher-name normalization (`internal/config`, `normalizeCipherName`),
* the `parseAuth` credential splitter (`internal/config/config.go`),
* the simple-obfs plugin wrappers in HTTP and TLS mode
  (`internal/plugin`, `obfsHTTPConn` / `obfsTLSConn`),
* the shadowsocks client dialer (`internal/shadowsocks`, `Client.DialContext`),
* the unified listener's protocol detector and CONNECT handler
  (`internal/proxy/unified.go`),
* the hot-reload manager (`internal/server/manager.go`), and
* the statistics collector (`internal/stats/collector.go`).

Go byte strings are modelled as `List Nat` (each element a byte value);
stateful connection wrappers are modelled by explicit state records and
state-passing functions; fallible operations return `Option`.
-/

set_option maxRecDepth 20000

namespace LightSS

/-- Byte-list view of an ASCII string literal (Go strings are byte slices). -/
def strBytes (s : String) : List Nat := s.toList.map Char.toNat

/-! ## Cipher-name normalization (`internal/config`, `normalizeCipherName`) -/

/-- One byte under Go `strings.ToUpper`, restricted to ASCII (cipher names
are ASCII): a lowercase letter is shifted to the corresponding uppercase
letter, every other byte is unchanged. -/
def upperByte (b : Nat) : Nat := if 97 ≤ b ∧ b ≤ 122 then b - 32 else b

/-- `strings.ToUpper` on a byte string. -/
def goToUpper (s : List Nat) : List Nat := s.map upperByte

/-- One byte under `strings.ReplaceAll(s, "-", "_")`: `-` (45) becomes `_` (95). -/
def dashToUnderscore (b : Nat) : Nat := if b = 45 then 95 else b

/-- `strings.ReplaceAll(s, "-", "_")` on a byte string. -/
def replaceDashes (s : List Nat) : List Nat := s.map dashToUnderscore

/-- The byte string `"AEAD_"`. -/
def aeadTag : List Nat := strBytes "AEAD_"

/-- `strings.HasPrefix(s, "AEAD_")`. -/
def startsWithAEAD (s : List Nat) : Bool := aeadTag.isPrefixOf s

/-- The `cipherMap` table of `normalizeCipherName`. -/
def cipherMap : List (List Nat × List Nat) :=
  [ (strBytes "AES-128-GCM", strBytes "AEAD_AES_128_GCM"),
    (strBytes "AES-192-GCM", strBytes "AEAD_AES_192_GCM"),
    (strBytes "AES-256-GCM", strBytes "AEAD_AES_256_GCM"),
    (strBytes "CHACHA20-POLY1305", strBytes "AEAD_CHACHA20_POLY1305"),
    (strBytes "CHACHA20-IETF-POLY1305", strBytes "AEAD_CHACHA20_POLY1305"),
    (strBytes "XCHACHA20-POLY1305", strBytes "AEAD_XCHACHA20_POLY1305") ]

/-- Go map lookup on an association list of byte strings. -/
def lookupCipher (k : List Nat) : List (List Nat × List Nat) → Option (List Nat)
  | [] => none
  | (k', v) :: rest => if k = k' then some v else lookupCipher k rest

/-- `normalizeCipherName` (`internal/config`): uppercase the configured
cipher name, turn dashes into underscores, keep names already carrying the
`AEAD_` marker, translate the common spellings through `cipherMap`, and
otherwise prepend `AEAD_`. -/
def normalizeCipherName (s : List Nat) : List Nat :=
  let cipher := goToUpper s
  let normalized := replaceDashes cipher
  if startsWithAEAD normalized then
    normalized
  else
    match lookupCipher cipher cipherMap with
    | some mapped => mapped
    | none =>
      if startsWithAEAD normalized then normalized
      else aeadTag ++ normalized

/-! ## simple-obfs plugin (`internal/plugin`, `SimpleObfs`) -/

/-- Plugin options (`config.PluginOpts`): obfuscation mode and HTTP host. -/
structure GoPluginOpts where
  obfs : List Nat
  obfsHost : List Nat
deriving DecidableEq

/-- The `SimpleObfs` plugin value: mode (`"http"` or `"tls"`) and host. -/
structure SimpleObfs where
  mode : List Nat
  obfsHost : List Nat
deriving DecidableEq

/-- `NewSimpleObfs`: `nil` options are an error; an empty mode defaults to
`"http"`; an empty host in http mode defaults to `"www.bing.com"`. -/
def newSimpleObfs (opts : Option GoPluginOpts) : Option SimpleObfs :=
  match opts with
  | none => none
  | some o =>
    let mode := if o.obfs = [] then strBytes "http" else o.obfs
    let host :=
      if o.obfsHost = [] ∧ mode = strBytes "http" then strBytes "www.bing.com"
      else o.obfsHost
    some ⟨mode, host⟩

/-- Decimal digits of `n` (the bytes `fmt.Sprintf`'s `%d` emits), written
with structural fuel so that it evaluates in the kernel. -/
def decimalBytesAux : Nat → Nat → List Nat
  | 0, _ => []
  | fuel + 1, n =>
    if n < 10 then [48 + n]
    else decimalBytesAux fuel (n / 10) ++ [48 + n % 10]

/-- The bytes of `n` in decimal, as `fmt.Sprintf("%d", n)` renders them. -/
def decimalBytes (n : Nat) : List Nat := decimalBytesAux (n + 1) n

/-- The synthetic request `obfsHTTPConn.Write` builds on its first call
(`fmt.Sprintf` over the host and the payload length). -/
def httpObfsRequest (host : List Nat) (dataLen : Nat) : List Nat :=
  strBytes "GET / HTTP/1.1\r\nHost: " ++ host ++
    strBytes "\r\nUser-Agent: curl/7.68.0\r\nUpgrade: websocket\r\nConnection: Upgrade\r\nContent-Length: " ++
    decimalBytes dataLen ++ strBytes "\r\n\r\n"

/-- The mutable state of an `obfsHTTPConn`: the configured host, the two
first-use flags, and the bytes written so far to the underlying
`net.Conn` (`wire`). -/
structure ObfsHTTPConn where
  host : List Nat
  firstWrite : Bool
  firstRead : Bool
  wire : List Nat
deriving DecidableEq

/-- `p.wrapHTTP(conn)`: a fresh HTTP-obfs wrapper over an idle connection. -/
def wrapHTTP (p : SimpleObfs) : ObfsHTTPConn :=
  ⟨p.obfsHost, true, true, []⟩

/-- `obfsHTTPConn.Write`: the first write prepends the synthetic GET request
and reports only the payload length as written; later writes pass through.
The underlying `net.Conn.Write` is modelled as accepting the buffer whole
(its success path). -/
def obfsHTTPWrite (c : ObfsHTTPConn) (b : List Nat) : ObfsHTTPConn × Nat :=
  if c.firstWrite then
    let req := httpObfsRequest c.host b.length
    let combined := req ++ b
    let n := combined.length
    ({ c with firstWrite := false, wire := c.wire ++ combined },
      if n > req.length then n - req.length else 0)
  else
    ({ c with wire := c.wire ++ b }, b.length)

/-- `bufio.Reader.ReadString('\n')` on a byte stream: the consumed line
(including the `\n` when one is found; the whole rest when none is) and the
remaining stream. -/
def readLine : List Nat → List Nat × List Nat
  | [] => ([], [])
  | b :: rest =>
    if b = 10 then ([10], rest)
    else (b :: (readLine rest).1, (readLine rest).2)

/-- The header-skipping loop of `obfsHTTPConn.Read`: discard lines until a
bare `\r\n` (or `\n`) line, which is consumed too; a line without `\n`
means `ReadString` errored after consuming the remainder. Returns what is
left for the caller. -/
def dropHeaderLines (s : List Nat) : List Nat :=
  if 10 ∈ (readLine s).1 then
    if (readLine s).1 = [13, 10] ∨ (readLine s).1 = [10] then (readLine s).2
    else dropHeaderLines (readLine s).2
  else []
termination_by s.length
decreasing_by
  have hj : ∀ t : List Nat, (readLine t).1 ++ (readLine t).2 = t := by
    intro t
    induction t with
    | nil => rfl
    | cons b rest ih =>
      by_cases hb : b = 10
      · simp [readLine, hb]
      · simp only [readLine, if_neg hb, List.cons_append, List.cons.injEq,
          true_and]
        exact ih
  have hj := hj s
  have hne : (readLine s).1 ≠ [] := by
    intro he
    simp_all
  have hlen := congrArg List.length hj
  rw [List.length_append] at hlen
  have hpos : 0 < (readLine s).1.length := List.length_pos.mpr hne
  omega

/-- The transformation `obfsHTTPConn.Read` applies to the incoming byte
stream on its first call: `Peek(12)` must succeed with 12 bytes, and the
stream must open with ASCII `HTTP`, for the header block to be discarded;
otherwise the stream is delivered unchanged. -/
def obfsHTTPFirstRead (s : List Nat) : List Nat :=
  if 12 ≤ s.length ∧ s.take 4 = strBytes "HTTP" then dropHeaderLines s else s

/-- The stripped form of the first write's output that the specification
asserts the first read recovers: drop the GET preamble, that is everything
through the first blank line. This is the spec's `http_unwrap_first`,
stated from its words; the wrapper's own first read is
`obfsHTTPFirstRead` above. -/
def httpUnwrapFirstSpec (s : List Nat) : List Nat := dropHeaderLines s

/-- The 2-byte big-endian length `binary.BigEndian.PutUint16` writes (the
Go `uint16(n)` conversion reduces `n` modulo `2^16`). -/
def lenBE16 (n : Nat) : List Nat := [n % 65536 / 256, n % 256]

/-- `obfsTLSConn.Write`: split the buffer into chunks of at most 16384
bytes and emit each behind the 5-byte record header
`0x17 0x03 0x03 len_be16`. Fuel (`b.length` at the top call) makes the
chunking loop structural. -/
def tlsFrameAux : Nat → List Nat → List Nat
  | 0, _ => []
  | fuel + 1, b =>
    if b = [] then []
    else
      (23 :: 3 :: 3 :: lenBE16 (b.take 16384).length) ++ b.take 16384 ++
        tlsFrameAux fuel (b.drop 16384)

/-- The bytes one `obfsTLSConn.Write(b)` call puts on the wire. -/
def tlsFrame (b : List Nat) : List Nat := tlsFrameAux b.length b

/-- The read path of `obfsTLSConn`: the type declares no `Read` method, so
reads are served by the embedded `net.Conn` and the incoming bytes are
delivered unchanged. -/
def tlsObfsRead (s : List Nat) : List Nat := s

/-! ## Unified listener (`internal/proxy/unified.go`) -/

/-- How `UnifiedProxy.handleConnection` disposes of an accepted
connection. -/
inductive Route
  | closedSilently
  | servedSOCKS5
  | servedHTTP
deriving DecidableEq

/-- `bufio.Reader.Peek(1)` on the client byte stream: fails exactly when
the client closed before sending any byte; peeking does not consume. -/
def peek1 : List Nat → Option Nat
  | [] => none
  | b :: _ => some b

/-- Outcome of protocol detection: the route taken, any bytes written back
to the client during detection, and the stream handed to the protocol
handler (the buffered reader replays the peeked byte). -/
structure DetectResult where
  route : Route
  clientWrites : List Nat
  handlerInput : Option (List Nat)
deriving DecidableEq

/-- `UnifiedProxy.handleConnection`: peek one byte on a buffered reader;
a failed peek closes the connection without writing anything; byte `0x05`
dispatches to the SOCKS5 server, anything else to the HTTP handler, both
over the buffered connection that still holds the peeked byte. -/
def handleConnection (input : List Nat) : DetectResult :=
  match peek1 input with
  | none => ⟨Route.closedSilently, [], none⟩
  | some b =>
    if b = 0x05 then ⟨Route.servedSOCKS5, [], some input⟩
    else ⟨Route.servedHTTP, [], some input⟩

/-- Outcome of `UnifiedProxy.handleConnect`: the bytes written to the
client, whether the bidirectional relay was entered, and whether the
client connection ends up closed (it always does, by the deferred
close). -/
structure ConnectResult where
  clientWrites : List Nat
  relayStarted : Bool
  clientClosed : Bool
deriving DecidableEq

/-- `UnifiedProxy.handleConnect`, parameterized by whether the upstream
`DialContext` succeeded: on success write the 200 line and relay, on
failure write the 502 line and return (the deferred close fires). -/
def handleConnect (dialOK : Bool) : ConnectResult :=
  if dialOK then
    ⟨strBytes "HTTP/1.1 200 Connection established\r\n\r\n", true, true⟩
  else
    ⟨strBytes "HTTP/1.1 502 Bad Gateway\r\n\r\n", false, true⟩

/-! ## Statistics collector (`internal/stats/collector.go`) -/

/-- The counters of `stats.Collector` (atomic `Int64`s in the source). -/
structure CollectorState where
  totalConnections : Int
  activeConnections : Int
  httpConnections : Int
  socks5Connections : Int
deriving DecidableEq

/-- `Collector.RecordConnection`: bump total and active, and the
per-protocol counter selected by the `switch`. -/
def recordConnection (c : CollectorState) (proxyType : List Nat) : CollectorState :=
  let c1 := { c with totalConnections := c.totalConnections + 1,
                     activeConnections := c.activeConnections + 1 }
  if proxyType = strBytes "http" then
    { c1 with httpConnections := c1.httpConnections + 1 }
  else if proxyType = strBytes "socks5" then
    { c1 with socks5Connections := c1.socks5Connections + 1 }
  else c1

/-- `Collector.RecordDisconnection`. -/
def recordDisconnection (c : CollectorState) : CollectorState :=
  { c with activeConnections := c.activeConnections - 1 }

/-- The close flag of a `stats.TrackedConn`. -/
structure TrackedConnState where
  closed : Bool
deriving DecidableEq

/-- `NewTrackedConn`: records the connection and starts unclosed. -/
def newTrackedConn (c : CollectorState) (proxyType : List Nat) :
    TrackedConnState × CollectorState :=
  (⟨false⟩, recordConnection c proxyType)

/-- `TrackedConn.Close`: under the mutex, only the first call flips the
flag and records the disconnection; later calls leave the counters
alone. -/
def trackedClose : TrackedConnState × CollectorState → TrackedConnState × CollectorState
  | (t, c) => if t.closed then (t, c) else (⟨true⟩, recordDisconnection c)

/-! ## `parseAuth` (`internal/config/config.go`) -/

/-- `strings.Index(s, b)` for a single-byte needle: position of the first
occurrence. -/
def indexOfByte (b : Nat) : List Nat → Option Nat
  | [] => none
  | x :: xs => if x = b then some 0 else (indexOfByte b xs).map (· + 1)

/-- `strings.LastIndex(s, b)` for a single-byte needle. -/
def lastIndexOfByte (b : Nat) (s : List Nat) : Option Nat :=
  match indexOfByte b s.reverse with
  | none => none
  | some i => some (s.length - 1 - i)

/-- `config.AuthConfig`. -/
structure AuthConfig where
  username : List Nat
  password : List Nat
deriving DecidableEq

/-- `parseAuth`: split `user:pass@host:port` at the last `@` and the first
`:` before it. Returns the parsed credentials (or none) together with the
final value of the `addr` string, which is rewritten to the host part only
on success. -/
def parseAuth (addr : List Nat) : Option AuthConfig × List Nat :=
  if addr = [] then (none, addr)
  else
    match lastIndexOfByte 64 addr with
    | none => (none, addr)
    | some atIndex =>
      let authPart := addr.take atIndex
      let hostPart := addr.drop (atIndex + 1)
      match indexOfByte 58 authPart with
      | none => (none, addr)
      | some colonIndex =>
        (some ⟨authPart.take colonIndex, authPart.drop (colonIndex + 1)⟩, hostPart)

/-! ## Shadowsocks client and hot-reload manager -/

/-- The `config.ShadowsocksConfig` fields `NewClient` consumes. -/
structure GoShadowsocksConfig where
  server : List Nat
  password : List Nat
  cipher : List Nat
  timeout : Nat
  plugin : List Nat
  pluginOpts : Option GoPluginOpts
deriving DecidableEq

/-- Whether `core.PickCipher` (go-shadowsocks2 dependency, modelled)
accepts the cipher name: the name is uppercased, the common spellings are
aliased, and the result must be `DUMMY` or one of the five AEAD ciphers;
anything else is unsupported. (Legacy stream ciphers are omitted from the
model.) -/
def pickCipherOK (name : List Nat) : Bool :=
  let up := goToUpper name
  if up = strBytes "DUMMY" then true
  else
    let canon :=
      if up = strBytes "CHACHA20-IETF-POLY1305" then strBytes "AEAD_CHACHA20_POLY1305"
      else if up = strBytes "XCHACHA20-IETF-POLY1305" then strBytes "AEAD_XCHACHA20_POLY1305"
      else if up = strBytes "AES-128-GCM" then strBytes "AEAD_AES_128_GCM"
      else if up = strBytes "AES-192-GCM" then strBytes "AEAD_AES_192_GCM"
      else if up = strBytes "AES-256-GCM" then strBytes "AEAD_AES_256_GCM"
      else up
    canon = strBytes "AEAD_AES_128_GCM" || canon = strBytes "AEAD_AES_192_GCM" ||
      canon = strBytes "AEAD_AES_256_GCM" || canon = strBytes "AEAD_CHACHA20_POLY1305" ||
      canon = strBytes "AEAD_XCHACHA20_POLY1305"

/-- `plugin.NewPlugin`: empty name means no plugin; `simple-obfs` and
`obfs-local` build a `SimpleObfs` (failing when the options are absent);
unknown names silently proceed without a plugin. The outer `Option` is the
error channel. -/
def newPlugin (cfg : GoShadowsocksConfig) : Option (Option SimpleObfs) :=
  if cfg.plugin = [] then some none
  else if cfg.plugin = strBytes "simple-obfs" ∨ cfg.plugin = strBytes "obfs-local" then
    match newSimpleObfs cfg.pluginOpts with
    | none => none
    | some p => some (some p)
  else some none

/-- `shadowsocks.Client` as `NewClient` builds it. -/
structure SSClient where
  serverAddr : List Nat
  cipherName : List Nat
  timeoutSecs : Nat
  plugin : Option SimpleObfs
deriving DecidableEq

/-- `shadowsocks.NewClient`: fails when `core.PickCipher` rejects the
cipher or the plugin cannot be built; otherwise packages the
configuration. -/
def newSSClient (cfg : GoShadowsocksConfig) : Option SSClient :=
  if pickCipherOK cfg.cipher then
    match newPlugin cfg with
    | none => none
    | some plug => some ⟨cfg.server, cfg.cipher, cfg.timeout, plug⟩
  else none

/-- The `server.Manager` state `ReloadConfig` touches: the published
client, the retained old clients, and the stored configuration. -/
structure ManagerState where
  ssClient : SSClient
  oldClients : List SSClient
  cfgShadowsocks : GoShadowsocksConfig
deriving DecidableEq

/-- `Manager.ReloadConfig`: build the new client first; on failure report
the error with the state untouched; on success retire the previous client
to `oldClients`, publish the new client and store the new configuration.
The `Bool` is true when an error is returned. -/
def reloadConfig (m : ManagerState) (newCfg : GoShadowsocksConfig) :
    Bool × ManagerState :=
  match newSSClient newCfg with
  | none => (true, m)
  | some c => (false, ⟨c, m.oldClients ++ [m.ssClient], newCfg⟩)

/-- `Manager.GetSSClient` (what a new dial picks up). -/
def getSSClient (m : ManagerState) : SSClient := m.ssClient

/-! ## Shadowsocks dialer (`internal/shadowsocks`, `Client.DialContext`) -/

/-- The host part of a target after `net.SplitHostPort` and `net.ParseIP`
classification inside `socks.ParseAddr` (go-shadowsocks2 dependency):
an IPv4 address (4 bytes), an IPv6 address (16 bytes), or a domain name
(its ASCII bytes). -/
inductive TargetHost
  | ipv4 (b0 b1 b2 b3 : Nat)
  | ipv6 (bytes : List Nat)
  | domain (bytes : List Nat)
deriving DecidableEq

/-- A structured target address. -/
structure TargetAddr where
  host : TargetHost
  port : Nat
deriving DecidableEq

/-- The two big-endian port bytes `byte(port>>8), byte(port)` (the port is
already checked to fit 16 bits). -/
def portBE (p : Nat) : List Nat := [p / 256, p % 256]

/-- `socks.ParseAddr` (go-shadowsocks2 dependency, modelled over the
structured host): ATYP 1 and 4 bytes for IPv4, ATYP 4 and 16 bytes for
IPv6, ATYP 3 with a length byte for a domain of at most 255 bytes, then
the 2-byte big-endian port; a port that does not fit 16 bits fails
(`strconv.ParseUint(port, 10, 16)` errors). -/
def socksParseAddr (a : TargetAddr) : Option (List Nat) :=
  if a.port < 65536 then
    match a.host with
    | .ipv4 b0 b1 b2 b3 => some ([1, b0, b1, b2, b3] ++ portBE a.port)
    | .ipv6 bs => if bs.length = 16 then some (4 :: (bs ++ portBE a.port)) else none
    | .domain ds =>
      if ds.length ≤ 255 then some (3 :: ds.length :: (ds ++ portBE a.port)) else none
  else none

/-- The stream `DialContext` hands back, viewed as the ordered plaintext
payloads written on the cipher-wrapped connection. -/
structure SSConn where
  plaintextWrites : List (List Nat)
deriving DecidableEq

/-- `Client.DialContext` (success path of the dial): parse the target,
dial the upstream, optionally wrap with the plugin, wrap with the cipher,
and write the target-address bytes — the first plaintext payload on the
fresh stream. A target that fails to parse yields no connection. -/
def dialContext (a : TargetAddr) : Option SSConn :=
  match socksParseAddr a with
  | none => none
  | some tgt => some ⟨[tgt]⟩

/-- A later application write on the returned connection appends one
plaintext payload. -/
def ssWrite (c : SSConn) (b : List Nat) : SSConn :=
  ⟨c.plaintextWrites ++ [b]⟩

/-- The SOCKS5 target encoding as the specification words it (§3,
TargetAddress): `ATYP(1) | addr | PORT(2)`, IPv4 = 4 bytes, IPv6 = 16
bytes, DomainName = `LEN(1) | bytes`. -/
def specSocks5Encode (a : TargetAddr) : List Nat :=
  match a.host with
  | .ipv4 b0 b1 b2 b3 => [1, b0, b1, b2, b3] ++ portBE a.port
  | .ipv6 bs => 4 :: (bs ++ portBE a.port)
  | .domain ds => 3 :: ds.length :: (ds ++ portBE a.port)

lemma upperByte_idem (b : Nat) : upperByte (upperByte b) = upperByte b := by
  unfold upperByte; split_ifs <;> omega

lemma dashToUnderscore_upperByte (b : Nat) :
    upperByte (dashToUnderscore (upperByte b)) = dashToUnderscore (upperByte b) := by
  unfold upperByte dashToUnderscore
  split_ifs <;> omega

lemma dashToUnderscore_idem (b : Nat) :
    dashToUnderscore (dashToUnderscore b) = dashToUnderscore b := by
  unfold dashToUnderscore; split_ifs <;> omega

lemma goToUpper_replaceDashes_goToUpper (s : List Nat) :
    goToUpper (replaceDashes (goToUpper s)) = replaceDashes (goToUpper s) := by
  simp only [goToUpper, replaceDashes, List.map_map]
  exact List.map_congr_left fun b _ => dashToUnderscore_upperByte b

lemma replaceDashes_replaceDashes (s : List Nat) :
    replaceDashes (replaceDashes s) = replaceDashes s := by
  simp only [replaceDashes, List.map_map]
  exact List.map_congr_left fun b _ => dashToUnderscore_idem b

lemma goToUpper_append (s t : List Nat) :
    goToUpper (s ++ t) = goToUpper s ++ goToUpper t := by
  simp [goToUpper]

lemma replaceDashes_append (s t : List Nat) :
    replaceDashes (s ++ t) = replaceDashes s ++ replaceDashes t := by
  simp [replaceDashes]

lemma startsWithAEAD_append (t : List Nat) : startsWithAEAD (aeadTag ++ t) = true := by
  simp [startsWithAEAD, List.isPrefixOf_iff_prefix]

lemma lookupCipher_mem {k v : List Nat} {m : List (List Nat × List Nat)}
    (h : lookupCipher k m = some v) : v ∈ m.map Prod.snd := by
  induction m with
  | nil => simp [lookupCipher] at h
  | cons p rest ih =>
    obtain ⟨k', v'⟩ := p
    by_cases hk : k = k'
    · simp [lookupCipher, hk] at h
      simp [h]
    · simp only [lookupCipher, if_neg hk] at h
      simp [ih h]

/-- Unfolding `normalizeCipherName` with the redundant inner check removed
(in the `none` branch the inner `if` condition is the already-failed outer
condition). -/
lemma normalizeCipherName_eq (s : List Nat) :
    normalizeCipherName s =
      if startsWithAEAD (replaceDashes (goToUpper s)) = true then
        replaceDashes (goToUpper s)
      else
        match lookupCipher (goToUpper s) cipherMap with
        | some mapped => mapped
        | none => aeadTag ++ replaceDashes (goToUpper s) := by
  unfold normalizeCipherName
  by_cases h : startsWithAEAD (replaceDashes (goToUpper s)) = true
  · simp only [if_pos h]
  · simp only [if_neg h]

/-- Every value of the `cipherMap` table is uppercase, dash-free and carries
the `AEAD_` marker. -/
lemma cipherMap_value_fixed (v : List Nat) (hv : v ∈ cipherMap.map Prod.snd) :
    goToUpper v = v ∧ replaceDashes v = v ∧ startsWithAEAD v = true := by
  simp only [cipherMap, List.map_cons, List.map_nil, List.mem_cons,
    List.not_mem_nil, or_false] at hv
  rcases hv with h | h | h | h | h | h <;> subst h <;>
    exact ⟨by decide, by decide, by decide⟩

/-- Every output of `normalizeCipherName` is a fixed point of uppercasing and
dash replacement and carries the `AEAD_` marker. -/
lemma normalizeCipherName_fixed (s : List Nat) :
    goToUpper (normalizeCipherName s) = normalizeCipherName s ∧
    replaceDashes (normalizeCipherName s) = normalizeCipherName s ∧
    startsWithAEAD (normalizeCipherName s) = true := by
  rw [normalizeCipherName_eq]
  by_cases h1 : startsWithAEAD (replaceDashes (goToUpper s)) = true
  · rw [if_pos h1]
    exact ⟨goToUpper_replaceDashes_goToUpper s, replaceDashes_replaceDashes _, h1⟩
  · rw [if_neg h1]
    rcases hl : lookupCipher (goToUpper s) cipherMap with _ | mapped
    · refine ⟨?_, ?_, startsWithAEAD_append _⟩
      · rw [goToUpper_append, goToUpper_replaceDashes_goToUpper]
        have ht : goToUpper aeadTag = aeadTag := by decide
        rw [ht]
      · rw [replaceDashes_append, replaceDashes_replaceDashes]
        have ht : replaceDashes aeadTag = aeadTag := by decide
        rw [ht]
    · obtain ⟨a, b, c⟩ := cipherMap_value_fixed mapped (lookupCipher_mem hl)
      exact ⟨a, b, c⟩

/-- C8: cipher-name normalization is idempotent: for every input byte string
`x`, `normalizeCipherName (normalizeCipherName x) = normalizeCipherName x`. -/
theorem normalizeCipherName_idempotent (x : List Nat) :
    normalizeCipherName (normalizeCipherName x) = normalizeCipherName x := by
  obtain ⟨h1, h2, h3⟩ := normalizeCipherName_fixed x
  rw [normalizeCipherName_eq (normalizeCipherName x), h1, h2, if_pos h3]

/-- C9: with the default http-mode host (`www.bing.com`, applied when no
host is configured), the first write of payload `0xAA 0xBB` puts on the
underlying connection exactly the synthetic GET request with
`Content-Length: 2` followed by the two payload bytes. -/
theorem httpObfs_firstWrite_wire :
    newSimpleObfs (some ⟨strBytes "http", []⟩) =
      some ⟨strBytes "http", strBytes "www.bing.com"⟩ ∧
    (obfsHTTPWrite (wrapHTTP ⟨strBytes "http", strBytes "www.bing.com"⟩)
        [0xAA, 0xBB]).1.wire
      = strBytes "GET / HTTP/1.1\r\nHost: www.bing.com\r\nUser-Agent: curl/7.68.0\r\nUpgrade: websocket\r\nConnection: Upgrade\r\nContent-Length: 2\r\n\r\n"
        ++ [0xAA, 0xBB] := by
  constructor
  · rfl
  · have h1 : (obfsHTTPWrite (wrapHTTP ⟨strBytes "http", strBytes "www.bing.com"⟩)
          [0xAA, 0xBB]).1.wire
        = httpObfsRequest (strBytes "www.bing.com") 2 ++ [0xAA, 0xBB] := by decide
    have h2 : httpObfsRequest (strBytes "www.bing.com") 2
        = strBytes "GET / HTTP/1.1\r\nHost: www.bing.com\r\nUser-Agent: curl/7.68.0\r\nUpgrade: websocket\r\nConnection: Upgrade\r\nContent-Length: 2\r\n\r\n" := by
      decide
    rw [h1, h2]

/-- C2 (code bug): `obfsTLSConn.Write` frames the payload `0xAA` as a TLS
application-data record, but the type declares no `Read`, so the bytes a
peer's symmetric wrapper sends come back with their 5-byte record headers
intact: the read path applied to the framed bytes does not return the
payload. -/
theorem tlsObfs_read_keeps_record_header :
    tlsFrame [0xAA] = [0x17, 0x03, 0x03, 0, 1, 0xAA] ∧
    tlsObfsRead (tlsFrame [0xAA]) ≠ [0xAA] :=
  ⟨by decide, by decide⟩

lemma readLine_append (a rest : List Nat) (ha : 10 ∉ a) :
    readLine (a ++ 10 :: rest) = (a ++ [10], rest) := by
  induction a with
  | nil => simp [readLine]
  | cons x t ih =>
    have hx : x ≠ 10 := by
      intro he
      subst he
      exact ha (List.mem_cons_self _ _)
    have ht : 10 ∉ t := fun hm => ha (List.mem_cons_of_mem x hm)
    simp [readLine, hx, ih ht]

lemma dropHeaderLines_blank (rest : List Nat) :
    dropHeaderLines (13 :: 10 :: rest) = rest := by
  rw [dropHeaderLines]
  simp [readLine]

lemma dropHeaderLines_step (a rest : List Nat) (ha : 10 ∉ a) (h0 : a ≠ [])
    (h13 : a ≠ [13]) :
    dropHeaderLines (a ++ 10 :: rest) = dropHeaderLines rest := by
  have hne1 : a ++ [10] ≠ [13, 10] := by
    intro hc
    have : a ++ [10] = [13] ++ [10] := by simpa using hc
    exact h13 (List.append_cancel_right this)
  have hne2 : a ++ [10] ≠ [10] := by
    intro hc
    have : a ++ [10] = [] ++ [10] := by simpa using hc
    exact h0 (List.append_cancel_right this)
  rw [dropHeaderLines, readLine_append a rest ha]
  simp [hne1, hne2]

lemma dropHeaderLines_foldr (lines : List (List Nat)) (B : List Nat)
    (h : ∀ l ∈ lines, 10 ∉ l ∧ l ≠ [] ∧ l ≠ [13]) :
    dropHeaderLines (lines.foldr (fun l acc => l ++ 10 :: acc) (13 :: 10 :: B))
      = B := by
  induction lines with
  | nil => simpa using dropHeaderLines_blank B
  | cons l ls ih =>
    obtain ⟨h1, h2, h3⟩ := h l (List.mem_cons_self l ls)
    rw [List.foldr_cons, dropHeaderLines_step _ _ h1 h2 h3]
    exact ih fun x hx => h x (List.mem_cons_of_mem l hx)

lemma decimalBytesAux_range (fuel : Nat) :
    ∀ n b, b ∈ decimalBytesAux fuel n → 48 ≤ b ∧ b ≤ 57 := by
  induction fuel with
  | zero =>
    intro n b hb
    simp [decimalBytesAux] at hb
  | succ f ih =>
    intro n b hb
    rw [decimalBytesAux] at hb
    by_cases hn : n < 10
    · rw [if_pos hn] at hb
      simp at hb
      omega
    · rw [if_neg hn] at hb
      rcases List.mem_append.mp hb with h | h
      · exact ih _ b h
      · simp at h
        have := Nat.mod_lt n (show 0 < 10 by norm_num)
        omega

lemma decimalBytes_no_lf (n : Nat) : 10 ∉ decimalBytes n := by
  intro h
  have := decimalBytesAux_range (n + 1) n 10 h
  omega

lemma httpObfsRequest_lines (host : List Nat) (n : Nat) (B : List Nat) :
    httpObfsRequest host n ++ B =
      [strBytes "GET / HTTP/1.1\r",
       72 :: (strBytes "ost: " ++ (host ++ [13])),
       strBytes "User-Agent: curl/7.68.0\r",
       strBytes "Upgrade: websocket\r",
       strBytes "Connection: Upgrade\r",
       67 :: (strBytes "ontent-Length: " ++ (decimalBytes n ++ [13]))].foldr
        (fun l acc => l ++ 10 :: acc) (13 :: 10 :: B) := by
  simp only [httpObfsRequest, List.foldr_cons, List.foldr_nil, List.append_assoc,
    List.cons_append, List.nil_append]
  rfl

/-- C3 (amended): the HTTP-obfs round trip holds with `http_unwrap_first`
taken as the GET-preamble stripper (discard everything through the first
blank line): for every payload `B` and LF-free host, stripping the first
write's output recovers `B`, and subsequent writes are the identity. The
wrapper's own first read, however, strips only streams that open with
ASCII `HTTP` (the obfs server's response), so it passes the GET preamble
through unchanged rather than stripping it. -/
theorem httpObfs_roundtrip_amended :
    (∀ (B host : List Nat), 10 ∉ host →
        httpUnwrapFirstSpec (httpObfsRequest host B.length ++ B) = B) ∧
    (∀ (c : ObfsHTTPConn) (B : List Nat), c.firstWrite = false →
        obfsHTTPWrite c B = ({ c with wire := c.wire ++ B }, B.length)) ∧
    (∀ (B host : List Nat),
        obfsHTTPFirstRead (httpObfsRequest host B.length ++ B)
          = httpObfsRequest host B.length ++ B) := by
  refine ⟨?_, ?_, ?_⟩
  · intro B host hh
    rw [httpUnwrapFirstSpec, httpObfsRequest_lines host B.length B]
    apply dropHeaderLines_foldr
    intro l hl
    simp only [List.mem_cons, List.not_mem_nil, or_false] at hl
    rcases hl with h | h | h | h | h | h <;> subst h
    · exact ⟨by decide, by decide, by decide⟩
    · refine ⟨?_, by simp, by simp⟩
      intro hc
      rcases List.mem_cons.mp hc with h72 | hc2
      · exact absurd h72 (by decide)
      · rcases List.mem_append.mp hc2 with hc3 | hc4
        · exact absurd hc3 (by decide)
        · rcases List.mem_append.mp hc4 with hc5 | hc6
          · exact hh hc5
          · exact absurd hc6 (by decide)
    · exact ⟨by decide, by decide, by decide⟩
    · exact ⟨by decide, by decide, by decide⟩
    · exact ⟨by decide, by decide, by decide⟩
    · refine ⟨?_, by simp, by simp⟩
      intro hc
      rcases List.mem_cons.mp hc with h67 | hc2
      · exact absurd h67 (by decide)
      · rcases List.mem_append.mp hc2 with hc3 | hc4
        · exact absurd hc3 (by decide)
        · rcases List.mem_append.mp hc4 with hc5 | hc6
          · exact decimalBytes_no_lf B.length hc5
          · exact absurd hc6 (by decide)
  · intro c B h
    simp [obfsHTTPWrite, h]
  · intro B host
    have ht : (httpObfsRequest host B.length ++ B).take 4 = [71, 69, 84, 32] := rfl
    rw [obfsHTTPFirstRead, if_neg]
    rintro ⟨_, hc⟩
    rw [ht] at hc
    exact absurd hc (by decide)

/-- Witness for `httpObfs_roundtrip_amended` at payload `AA BB` and host
`www.bing.com`. -/
theorem httpObfs_roundtrip_amended_witness :
    (10 ∉ strBytes "www.bing.com") ∧
    httpUnwrapFirstSpec
        (httpObfsRequest (strBytes "www.bing.com") [(0xAA : Nat), 0xBB].length
          ++ [0xAA, 0xBB]) = [0xAA, 0xBB] ∧
    obfsHTTPWrite ⟨strBytes "www.bing.com", false, false, []⟩ [0xAA, 0xBB]
      = (⟨strBytes "www.bing.com", false, false, [0xAA, 0xBB]⟩, 2) := by
  refine ⟨by decide, httpObfs_roundtrip_amended.1 [0xAA, 0xBB] _ (by decide), ?_⟩
  have h := httpObfs_roundtrip_amended.2.1
    ⟨strBytes "www.bing.com", false, false, []⟩ [0xAA, 0xBB] rfl
  simpa using h

/-- C3 counterexample: the wrapper's first read applied to its own first
write's output (payload `AA BB`, host `www.bing.com`) does not return the
payload — the claim's `http_unwrap_first ∘ http_wrap_first = id` with the
unwrapping done by the wrapper's read fails. -/
theorem httpObfs_firstRead_roundtrip_fails :
    obfsHTTPFirstRead
        ((obfsHTTPWrite (wrapHTTP ⟨strBytes "http", strBytes "www.bing.com"⟩)
            [0xAA, 0xBB]).1.wire)
      ≠ [0xAA, 0xBB] := by decide

/-- C4: the unified listener peeks one byte on a buffered reader. A failed
peek (client closed before sending any data) closes the connection
silently, writing no response; byte `0x05` routes to SOCKS5 and any other
byte to HTTP, both handlers seeing the full stream including the peeked
byte. -/
theorem handleConnection_peek_routing :
    handleConnection [] = ⟨Route.closedSilently, [], none⟩ ∧
    (∀ rest : List Nat,
        handleConnection (0x05 :: rest)
          = ⟨Route.servedSOCKS5, [], some (0x05 :: rest)⟩) ∧
    (∀ (b : Nat) (rest : List Nat), b ≠ 0x05 →
        handleConnection (b :: rest)
          = ⟨Route.servedHTTP, [], some (b :: rest)⟩) := by
  refine ⟨rfl, fun rest => rfl, fun b rest hb => ?_⟩
  simp [handleConnection, peek1, hb]

/-- Witness for `handleConnection_peek_routing`: the first byte of an HTTP
request line is not `0x05` and is routed to the HTTP handler. -/
theorem handleConnection_peek_routing_witness :
    handleConnection (71 :: strBytes "ET / HTTP/1.1")
      = ⟨Route.servedHTTP, [], some (71 :: strBytes "ET / HTTP/1.1")⟩ :=
  handleConnection_peek_routing.2.2 71 (strBytes "ET / HTTP/1.1") (by decide)

/-- C5: `handleConnect` writes exactly
`HTTP/1.1 200 Connection established\r\n\r\n` and enters the relay when
the upstream dial succeeds, and writes exactly
`HTTP/1.1 502 Bad Gateway\r\n\r\n` and closes without relaying when it
fails. -/
theorem handleConnect_responses :
    handleConnect true
      = ⟨strBytes "HTTP/1.1 200 Connection established\r\n\r\n", true, true⟩ ∧
    handleConnect false
      = ⟨strBytes "HTTP/1.1 502 Bad Gateway\r\n\r\n", false, true⟩ :=
  ⟨rfl, rfl⟩

lemma recordConnection_counts (c : CollectorState) (pt : List Nat) :
    (recordConnection c pt).totalConnections = c.totalConnections + 1 ∧
    (recordConnection c pt).activeConnections = c.activeConnections + 1 := by
  unfold recordConnection
  split_ifs <;> exact ⟨rfl, rfl⟩

lemma trackedClose_closed (c : CollectorState) :
    trackedClose (⟨true⟩, c) = (⟨true⟩, c) := rfl

lemma trackedClose_iterate (n : Nat) (hn : 1 ≤ n) (c : CollectorState) :
    trackedClose^[n] (⟨false⟩, c) = (⟨true⟩, recordDisconnection c) := by
  obtain ⟨m, rfl⟩ : ∃ m, n = m + 1 := ⟨n - 1, by omega⟩
  rw [Function.iterate_succ_apply]
  have h1 : trackedClose (⟨false⟩, c) = (⟨true⟩, recordDisconnection c) := rfl
  rw [h1]
  exact Function.iterate_fixed (trackedClose_closed _) m

/-- C7: recording a tracked connection increments `total_connections` and
`active_connections` by exactly one, and however many times (at least one)
`Close` is then called, `active_connections` comes back to its pre-accept
value — a single decrement — while `total_connections` keeps exactly the
one increment. -/
theorem trackedConn_pairing (c : CollectorState) (pt : List Nat) (n : Nat)
    (hn : 1 ≤ n) :
    (newTrackedConn c pt).2.totalConnections = c.totalConnections + 1 ∧
    (newTrackedConn c pt).2.activeConnections = c.activeConnections + 1 ∧
    (trackedClose^[n] (newTrackedConn c pt)).2.activeConnections
      = c.activeConnections ∧
    (trackedClose^[n] (newTrackedConn c pt)).2.totalConnections
      = c.totalConnections + 1 := by
  obtain ⟨h1, h2⟩ := recordConnection_counts c pt
  refine ⟨h1, h2, ?_, ?_⟩
  · rw [newTrackedConn, trackedClose_iterate n hn]
    show (recordConnection c pt).activeConnections - 1 = c.activeConnections
    rw [h2]
    ring
  · rw [newTrackedConn, trackedClose_iterate n hn]
    exact h1

/-- Witness for `trackedConn_pairing`: three `Close` calls on one recorded
connection still remove only the single active-connection increment. -/
theorem trackedConn_pairing_witness :
    (trackedClose^[3] (newTrackedConn ⟨5, 2, 1, 1⟩ (strBytes "http"))).2.activeConnections
      = 2 ∧
    (trackedClose^[3] (newTrackedConn ⟨5, 2, 1, 1⟩ (strBytes "http"))).2.totalConnections
      = 6 :=
  ⟨(trackedConn_pairing ⟨5, 2, 1, 1⟩ (strBytes "http") 3 (by decide)).2.2.1,
   (trackedConn_pairing ⟨5, 2, 1, 1⟩ (strBytes "http") 3 (by decide)).2.2.2⟩

lemma indexOfByte_none_iff (b : Nat) (s : List Nat) :
    indexOfByte b s = none ↔ b ∉ s := by
  induction s with
  | nil => simp [indexOfByte]
  | cons x xs ih =>
    by_cases hx : x = b
    · subst hx
      simp [indexOfByte]
    · simp only [indexOfByte, if_neg hx, Option.map_eq_none', ih, List.mem_cons]
      constructor
      · rintro h (h1 | h2)
        · exact hx h1.symm
        · exact h h2
      · intro h hm
        exact h (Or.inr hm)

lemma indexOfByte_first (b : Nat) (u rest : List Nat) (hu : b ∉ u) :
    indexOfByte b (u ++ b :: rest) = some u.length := by
  induction u with
  | nil => simp [indexOfByte]
  | cons x t ih =>
    have hx : x ≠ b := by
      intro he
      subst he
      exact hu (List.mem_cons_self _ _)
    have ht : b ∉ t := fun hm => hu (List.mem_cons_of_mem x hm)
    simp [indexOfByte, hx, ih ht]

lemma lastIndexOfByte_last (b : Nat) (x h : List Nat) (hb : b ∉ h) :
    lastIndexOfByte b (x ++ b :: h) = some x.length := by
  rw [lastIndexOfByte]
  have hr : (x ++ b :: h).reverse = h.reverse ++ b :: x.reverse := by
    simp [List.reverse_append]
  rw [hr, indexOfByte_first b h.reverse x.reverse (by simpa using hb)]
  simp only [List.length_append, List.length_cons, List.length_reverse]
  congr 1
  omega

/-- C10: `parseAuth` splits at the last `@` and the first `:` of the part
before it (so the password may contain `@` or `:`), rewriting the address
to the host part; with no `@`, or no `:` before the last `@`, it returns
no credentials and leaves the address unchanged. -/
theorem parseAuth_spec :
    (∀ u p h : List Nat, 64 ∉ h → 58 ∉ u →
        parseAuth (u ++ [58] ++ p ++ [64] ++ h) = (some ⟨u, p⟩, h)) ∧
    (∀ s : List Nat, 64 ∉ s → parseAuth s = (none, s)) ∧
    (∀ a h : List Nat, 64 ∉ h → 58 ∉ a →
        parseAuth (a ++ [64] ++ h) = (none, a ++ [64] ++ h)) := by
  refine ⟨?_, ?_, ?_⟩
  · intro u p h hh hu
    have e : u ++ [58] ++ p ++ [64] ++ h = (u ++ 58 :: p) ++ 64 :: h := by simp
    rw [e]
    have hne : (u ++ 58 :: p) ++ 64 :: h ≠ [] := by simp
    have t3 : List.drop ((u ++ 58 :: p).length + 1) ((u ++ 58 :: p) ++ 64 :: h) = h := by
      have e2 : (u ++ 58 :: p) ++ 64 :: h = ((u ++ 58 :: p) ++ [64]) ++ h := by simp
      rw [e2, List.drop_left' (by simp; omega)]
    have t5 : List.drop (u.length + 1) (u ++ 58 :: p) = p := by
      have e3 : u ++ 58 :: p = (u ++ [58]) ++ p := by simp
      rw [e3, List.drop_left' (by simp)]
    rw [parseAuth, if_neg hne, lastIndexOfByte_last 64 (u ++ 58 :: p) h hh]
    simp only [List.take_left, t3, indexOfByte_first 58 u p hu, t5]
  · intro s hs
    by_cases h0 : s = []
    · subst h0
      rfl
    · have hnone : lastIndexOfByte 64 s = none := by
        rw [lastIndexOfByte,
          (indexOfByte_none_iff 64 s.reverse).mpr (by simpa using hs)]
      rw [parseAuth, if_neg h0, hnone]
  · intro a h hh ha
    have e : a ++ [64] ++ h = a ++ 64 :: h := by simp
    rw [e]
    have hne : a ++ 64 :: h ≠ [] := by simp
    rw [parseAuth, if_neg hne, lastIndexOfByte_last 64 a h hh]
    simp only [List.take_left, (indexOfByte_none_iff 58 a).mpr ha]

/-- Witness for `parseAuth_spec`: `user:pa:ss@host:1` splits into
credentials `user` / `pa:ss` with address rewritten to `host:1`, while an
address with no `@` is left alone. -/
theorem parseAuth_spec_witness :
    parseAuth (strBytes "user" ++ [58] ++ strBytes "pa:ss" ++ [64] ++ strBytes "host:1")
      = (some ⟨strBytes "user", strBytes "pa:ss"⟩, strBytes "host:1") ∧
    parseAuth (strBytes "host:1") = (none, strBytes "host:1") :=
  ⟨parseAuth_spec.1 _ _ _ (by decide) (by decide),
   parseAuth_spec.2.1 _ (by decide)⟩

/-- C6: `ReloadConfig` with parameters that fail client construction
reports the error and leaves the manager unchanged (the existing client
stays published); on success the previous client is retired to the
old-clients list (still retained for in-flight connections) and the new
client and configuration are published for subsequent dials. -/
theorem reloadConfig_swap (m : ManagerState) (cfg : GoShadowsocksConfig) :
    (newSSClient cfg = none → reloadConfig m cfg = (true, m)) ∧
    (∀ c, newSSClient cfg = some c →
        reloadConfig m cfg = (false, ⟨c, m.oldClients ++ [m.ssClient], cfg⟩) ∧
        getSSClient (reloadConfig m cfg).2 = c ∧
        m.ssClient ∈ (reloadConfig m cfg).2.oldClients) := by
  constructor
  · intro h
    simp [reloadConfig, h]
  · intro c h
    simp [reloadConfig, h, getSSClient]

/-- Witness for `reloadConfig_swap`: an unknown cipher (`rc4-md5`) is
rejected with the manager unchanged; `aes-128-gcm` succeeds, retiring the
previous client. -/
theorem reloadConfig_swap_witness :
    reloadConfig
        ⟨⟨strBytes "198.51.100.7:8388", strBytes "aes-128-gcm", 300, none⟩, [],
          ⟨strBytes "198.51.100.7:8388", strBytes "pw", strBytes "aes-128-gcm", 300, [], none⟩⟩
        ⟨strBytes "198.51.100.7:8388", strBytes "pw", strBytes "rc4-md5", 300, [], none⟩
      = (true,
          ⟨⟨strBytes "198.51.100.7:8388", strBytes "aes-128-gcm", 300, none⟩, [],
            ⟨strBytes "198.51.100.7:8388", strBytes "pw", strBytes "aes-128-gcm", 300, [], none⟩⟩) ∧
    reloadConfig
        ⟨⟨strBytes "198.51.100.7:8388", strBytes "aes-128-gcm", 300, none⟩, [],
          ⟨strBytes "198.51.100.7:8388", strBytes "pw", strBytes "aes-128-gcm", 300, [], none⟩⟩
        ⟨strBytes "203.0.113.9:8388", strBytes "pw2", strBytes "aes-256-gcm", 300, [], none⟩
      = (false,
          ⟨⟨strBytes "203.0.113.9:8388", strBytes "aes-256-gcm", 300, none⟩,
            [⟨strBytes "198.51.100.7:8388", strBytes "aes-128-gcm", 300, none⟩],
            ⟨strBytes "203.0.113.9:8388", strBytes "pw2", strBytes "aes-256-gcm", 300, [], none⟩⟩) :=
  ⟨(reloadConfig_swap _ _).1 (by decide),
   ((reloadConfig_swap _ _).2 _ (by decide)).1⟩

lemma foldl_ssWrite (ws : List (List Nat)) :
    ∀ c : SSConn, (ws.foldl ssWrite c).plaintextWrites = c.plaintextWrites ++ ws := by
  induction ws with
  | nil =>
    intro c
    simp
  | cons w t ih =>
    intro c
    rw [List.foldl_cons, ih]
    simp [ssWrite]

/-- C1: whenever `DialContext` succeeds, the first plaintext payload
written on the cipher-wrapped upstream stream is exactly the SOCKS5
`ATYP | ADDR | PORT` encoding of the target, and every application byte
comes in later payloads. -/
theorem dialContext_first_payload (a : TargetAddr) (conn : SSConn)
    (h : dialContext a = some conn) (appWrites : List (List Nat)) :
    (appWrites.foldl ssWrite conn).plaintextWrites
      = specSocks5Encode a :: appWrites := by
  rw [foldl_ssWrite]
  unfold dialContext at h
  rcases hp : socksParseAddr a with _ | tgt
  · rw [hp] at h
    exact absurd h (by simp)
  · rw [hp] at h
    have hc : conn = ⟨[tgt]⟩ := by
      cases h
      rfl
    subst hc
    have ht : tgt = specSocks5Encode a := by
      obtain ⟨host, port⟩ := a
      cases host with
      | ipv4 b0 b1 b2 b3 =>
        simp only [socksParseAddr] at hp
        split_ifs at hp with h1
        simp only [Option.some.injEq] at hp
        simp [specSocks5Encode, ← hp]
      | ipv6 bs =>
        simp only [socksParseAddr] at hp
        split_ifs at hp with h1 h2
        simp only [Option.some.injEq] at hp
        simp [specSocks5Encode, ← hp]
      | domain ds =>
        simp only [socksParseAddr] at hp
        split_ifs at hp with h1 h2
        simp only [Option.some.injEq] at hp
        simp [specSocks5Encode, ← hp]
    rw [ht]
    rfl

/-- Witness for `dialContext_first_payload`: dialing `example.com:80` puts
`03 0b example.com 00 50` first, before an application payload. -/
theorem dialContext_first_payload_witness :
    ([[(1 : Nat), 2]].foldl ssWrite
        ⟨[[3, 11] ++ strBytes "example.com" ++ [0, 80]]⟩).plaintextWrites
      = specSocks5Encode ⟨TargetHost.domain (strBytes "example.com"), 80⟩ :: [[1, 2]] :=
  dialContext_first_payload ⟨TargetHost.domain (strBytes "example.com"), 80⟩
    ⟨[[3, 11] ++ strBytes "example.com" ++ [0, 80]]⟩ (by decide) [[1, 2]]

end LightSS
